import Mathlib

/-!
Verification of the routem URL-routing library (source: src/src/lib.rs,
src/src/route.rs, src/src/route/parse.rs, src/src/route/param_type.rs).

Strings are modelled as `List Char` (Rust `&str` viewed through `chars()`).
The nom combinators used by the parser are modelled directly as functions
from input to `Option (result × remaining input)`; every failure the code can
produce is a recoverable nom `Error`, so `none` models failure and the
alternation in `segment` is plain `Option.orElse`.
-/

namespace Routem

/-- From param_type.rs: a named validator for one path component
(`pub struct ParamType { typename, check }`). -/
structure ParamType where
  typename : List Char
  check : List Char → Bool

/-- From param_type.rs: `check_str` — the `string` predicate accepts anything. -/
def check_str (_s : List Char) : Bool := true

/-- Decimal value of a digit string, most significant digit first. -/
def natVal (ds : List Char) : Nat := ds.foldl (fun a c => 10 * a + (c.toNat - 48)) 0

/-- Helper for `check_int`: at least one character, all ASCII digits, and the
decimal value is within `bound`. -/
def intDigits (ds : List Char) (bound : Nat) : Bool :=
  match ds with
  | [] => false
  | _ :: _ => ds.all Char.isDigit && decide (natVal ds ≤ bound)

/-- From param_type.rs: `check_int` is `s.parse::<i64>().is_ok()`.  Models the
Rust standard library integer parser: an optional leading `+` or `-` sign,
then one or more ASCII digits, with the resulting value required to fit in a
signed 64-bit integer. -/
def check_int (s : List Char) : Bool :=
  match s with
  | [] => false
  | c :: cs =>
    if c = '+' then intDigits cs (2 ^ 63 - 1)
    else if c = '-' then intDigits cs (2 ^ 63)
    else intDigits (c :: cs) (2 ^ 63 - 1)

/-- ASCII hexadecimal digit (both cases), as accepted by the uuid crate. -/
def isHexDigitChar (c : Char) : Bool :=
  ('0' ≤ c && c ≤ '9') || ('a' ≤ c && c ≤ 'f') || ('A' ≤ c && c ≤ 'F')

/-- Hyphen-separated hex groups of the given lengths (used for the 8-4-4-4-12
hyphenated UUID layout). -/
def groupsOk : List Char → List Nat → Bool
  | _, [] => false
  | s, [n] => decide (s.length = n) && s.all isHexDigitChar
  | s, n :: rest =>
    decide ((s.take n).length = n) && (s.take n).all isHexDigitChar &&
      (match s.drop n with
       | '-' :: t => groupsOk t rest
       | _ => false)

/-- From param_type.rs: `check_uuid` is `uuid::Uuid::try_parse(s).is_ok()`.
Models the uuid crate parser: simple (32 hex chars), hyphenated (8-4-4-4-12),
braced hyphenated, and URN-prefixed hyphenated forms. -/
def check_uuid (s : List Char) : Bool :=
  if s.length = 32 then s.all isHexDigitChar
  else if s.length = 36 then groupsOk s [8, 4, 4, 4, 12]
  else if s.length = 38 then
    match s with
    | '\x7b' :: t => groupsOk (t.take 36) [8, 4, 4, 4, 12] && decide (t.drop 36 = ['\x7d'])
    | _ => false
  else if s.length = 45 then
    match s with
    | 'u' :: 'r' :: 'n' :: ':' :: 'u' :: 'u' :: 'i' :: 'd' :: ':' :: t =>
        groupsOk t [8, 4, 4, 4, 12]
    | _ => false
  else false

/-- From param_type.rs: `STRING_PARAM`. -/
def STRING_PARAM : ParamType := ⟨"string".data, check_str⟩

/-- From param_type.rs: `UUID_PARAM`. -/
def UUID_PARAM : ParamType := ⟨"uuid".data, check_uuid⟩

/-- From param_type.rs: `INT_PARAM`. -/
def INT_PARAM : ParamType := ⟨"int".data, check_int⟩

/-- From param_type.rs: `ParamMap = HashMap<&str, ParamType>`, modelled as an
association list with HashMap insert/get semantics (insert replaces the entry
for an existing key, lookup is by exact key equality). -/
abbrev ParamMap := List (List Char × ParamType)

/-- HashMap::get: first entry whose key equals `n`. -/
def lookupPM : ParamMap → List Char → Option ParamType
  | [], _ => none
  | (k, v) :: rest, n => if k = n then some v else lookupPM rest n

/-- HashMap::insert: replace the entry for the key if present, else add it. -/
def insertPM : ParamMap → List Char → ParamType → ParamMap
  | [], k, v => [(k, v)]
  | (k', v') :: rest, k, v =>
    if k' = k then (k, v) :: rest else (k', v') :: insertPM rest k v

/-- From param_type.rs: `DEFAULT_PARAM_TYPES` holds the three built-ins. -/
def DEFAULT_PARAM_TYPES : ParamMap :=
  [("string".data, STRING_PARAM), ("uuid".data, UUID_PARAM), ("int".data, INT_PARAM)]

/-- From route.rs: `pub struct Param { name, kind }`. -/
structure Param where
  name : List Char
  kind : ParamType

/-- From route.rs: `pub enum Segment { Empty, Constant(String), Param(Param) }`. -/
inductive Segment where
  | Empty : Segment
  | Constant : List Char → Segment
  | Param : Param → Segment

/-- From route.rs: `pub struct Route { name, path }`. -/
structure Route where
  name : List Char
  path : List Segment

/-- From parse.rs: `pub struct Parser { param_types: ParamMap }`. -/
structure Parser where
  param_types : ParamMap

/-- From parse.rs: `ParseError`.  `ExtraInput` carries the segments parsed so
far and the unconsumed remainder; the Rust `Other` variant carries a formatted
nom error message, which no claim inspects, so it is modelled without payload. -/
inductive ParseError where
  | ExtraInput : List Segment → List Char → ParseError
  | Other : ParseError

/-- From parse.rs: `Parser::default` clones the static default registry. -/
def Parser.default : Parser := ⟨DEFAULT_PARAM_TYPES⟩

/-- From parse.rs: `Parser::new`. -/
def Parser.new (m : ParamMap) : Parser := ⟨m⟩

/-- From parse.rs: `Parser::add_param_type` inserts into this parser's own map,
keyed by the type's `typename`. -/
def Parser.add_param_type (p : Parser) (t : ParamType) : Parser :=
  ⟨insertPM p.param_types t.typename t⟩

/-- From parse.rs: `urlsafe_char` — ASCII alphanumeric, `-` or `_`. -/
def urlsafe_char (c : Char) : Bool :=
  ('0' ≤ c && c ≤ '9') || ('a' ≤ c && c ≤ 'z') || ('A' ≤ c && c ≤ 'Z') ||
    c = '-' || c = '_'

/-- From parse.rs: `is_alpha` — ASCII alphabetic. -/
def is_alpha (c : Char) : Bool :=
  ('a' ≤ c && c ≤ 'z') || ('A' ≤ c && c ≤ 'Z')

/-- From parse.rs: `urlsafe_str = take_while1(urlsafe_char)`: the longest
nonempty urlsafe run, failing if the first character is not urlsafe. -/
def urlsafe_str (input : List Char) : Option (List Char × List Char) :=
  match input.takeWhile urlsafe_char with
  | [] => none
  | taken => some (taken, input.dropWhile urlsafe_char)

/-- From parse.rs: `identifier = recognize(pair(take_while_m_n(1, 1, is_alpha),
urlsafe_str))`: exactly one alphabetic character followed by a nonempty
urlsafe run, returning the characters consumed. -/
def identifier (input : List Char) : Option (List Char × List Char) :=
  match input with
  | [] => none
  | c :: rest =>
    if is_alpha c then
      match urlsafe_str rest with
      | some (s, rest1) => some (c :: s, rest1)
      | none => none
    else none

/-- From parse.rs: `Parser::param` — `<`, identifier, `:`, a urlsafe typename
that must resolve in this parser's registry, `>`. -/
def Parser.param (p : Parser) (input : List Char) : Option (Segment × List Char) :=
  match input with
  | '<' :: r0 =>
    match identifier r0 with
    | some (nm, r1) =>
      match r1 with
      | ':' :: r2 =>
        match urlsafe_str r2 with
        | some (kindName, r3) =>
          match lookupPM p.param_types kindName with
          | some pt =>
            match r3 with
            | '>' :: r4 => some (Segment.Param ⟨nm, pt⟩, r4)
            | _ => none
          | none => none
        | none => none
      | _ => none
    | none => none
  | _ => none

/-- From parse.rs: `constant` — a nonempty urlsafe run. -/
def constantSeg (input : List Char) : Option (Segment × List Char) :=
  match urlsafe_str input with
  | some (s, rest) => some (Segment.Constant s, rest)
  | none => none

/-- From parse.rs: `empty` — `tag("")` always succeeds consuming nothing. -/
def emptySeg (input : List Char) : Option (Segment × List Char) :=
  some (Segment.Empty, input)

/-- From parse.rs: `Parser::segment = alt((param, constant, empty))` — ordered
alternation that backtracks to the original input between alternatives. -/
def Parser.segment (p : Parser) (input : List Char) : Option (Segment × List Char) :=
  (p.param input).orElse fun _ =>
    (constantSeg input).orElse fun _ => emptySeg input

/-- From parse.rs: the `separated_list0(tag("/"), segment)` loop.  `fuel`
bounds the iteration count; since the separator consumes one character on each
round, `input.length + 1` units of fuel always suffice, and `segment` never
fails (its `empty` alternative always succeeds), so the `none` and zero-fuel
arms are unreachable for the fuel supplied by `Parser.segments`. -/
def segLoopF (p : Parser) : Nat → List Char → List Segment × List Char
  | 0, input => ([], input)
  | fuel + 1, input =>
    match p.segment input with
    | none => ([], input)
    | some (s, rest) =>
      match rest with
      | '/' :: rest1 =>
        match segLoopF p fuel rest1 with
        | (ss, r) => (s :: ss, r)
      | _ => ([s], rest)

/-- The separated list of segments starting after the leading slash. -/
def Parser.segments (p : Parser) (input : List Char) : List Segment × List Char :=
  segLoopF p (input.length + 1) input

/-- From parse.rs: `Parser::parse_route` — `tag("/")` then the segment list. -/
def Parser.parse_route (p : Parser) (input : List Char) : Option (List Segment × List Char) :=
  match input with
  | c :: rest => if c = '/' then some (p.segments rest) else none
  | [] => none

/-- From parse.rs: `Parser::route` — empty remainder yields a `Route`, a
nonempty remainder yields `ParseError::ExtraInput`, and a parse failure
yields `ParseError::Other`. -/
def Parser.route (p : Parser) (name : List Char) (path : List Char) : Except ParseError Route :=
  match p.parse_route path with
  | none => Except.error ParseError.Other
  | some (segs, []) => Except.ok ⟨name, segs⟩
  | some (segs, rem) => Except.error (ParseError.ExtraInput segs rem)

/-- From route.rs: `path.strip_prefix('/')` — remove at most one leading slash. -/
def stripLead (path : List Char) : List Char :=
  match path with
  | c :: rest => if c = '/' then rest else path
  | [] => path

/-- Rust `str::split('/')` on the cleaned path: always at least one part, with
an empty part for each boundary slash and for the empty string. -/
def splitSlash : List Char → List (List Char)
  | [] => [[]]
  | c :: rest =>
    if c = '/' then [] :: splitSlash rest
    else
      match splitSlash rest with
      | [] => [[c]]
      | part :: parts => (c :: part) :: parts

/-- From route.rs: the position-by-position loop of `Route::check` over the
zipped parts and segments (the two lists have equal length when it is called). -/
def checkGo : List (List Char) → List Segment → Bool
  | [], [] => true
  | part :: parts, Segment.Empty :: segs => part.isEmpty && checkGo parts segs
  | part :: parts, Segment.Constant s :: segs => decide (part = s) && checkGo parts segs
  | part :: parts, Segment.Param pa :: segs => pa.kind.check part && checkGo parts segs
  | _, _ => false

/-- From route.rs: `Route::check` — strip one leading slash, split on `/`,
reject on a component-count mismatch, otherwise compare position by position. -/
def Route.check (r : Route) (path : List Char) : Bool :=
  let parts := splitSlash (stripLead path)
  if parts.length = r.path.length then checkGo parts r.path else false

/-- From route.rs: the collection loop of `Route::parse_params`: `Empty`
requires an empty part, `Constant` requires equality, and a `Param` part is
pushed verbatim (the type predicate is not consulted here). -/
def paramsGo : List (List Char) → List Segment → Option (List (List Char))
  | [], [] => some []
  | part :: parts, Segment.Empty :: segs =>
    if part.isEmpty then paramsGo parts segs else none
  | part :: parts, Segment.Constant s :: segs =>
    if part = s then paramsGo parts segs else none
  | part :: parts, Segment.Param _ :: segs =>
    Option.map (fun ps => part :: ps) (paramsGo parts segs)
  | _, _ => none

/-- From route.rs: `Route::parse_params` — same split and length guard as
`check`, then the collection walk. -/
def Route.parse_params (r : Route) (path : List Char) : Option (List (List Char)) :=
  let parts := splitSlash (stripLead path)
  if parts.length = r.path.length then paramsGo parts r.path else none

/-- From route.rs: the emission loop of `Route::fill` — a slash before every
segment, `Param` consuming the next value (failing when none is left), and a
final failure when values remain unconsumed. -/
def fillGo : List Segment → List (List Char) → Option (List Char)
  | [], vs => if vs.isEmpty then some [] else none
  | Segment.Empty :: rest, vs => Option.map (fun t => '/' :: t) (fillGo rest vs)
  | Segment.Constant s :: rest, vs => Option.map (fun t => '/' :: (s ++ t)) (fillGo rest vs)
  | Segment.Param _ :: _, [] => none
  | Segment.Param _ :: rest, v :: vs => Option.map (fun t => '/' :: (v ++ t)) (fillGo rest vs)

/-- From route.rs: `Route::fill`. -/
def Route.fill (r : Route) (vs : List (List Char)) : Option (List Char) :=
  fillGo r.path vs

/-- Number of `Param` segments in a segment list (the spec's parameter count). -/
def paramCount : List Segment → Nat
  | [] => 0
  | Segment.Param _ :: rest => paramCount rest + 1
  | _ :: rest => paramCount rest

/-- Path emitted by `fill` for an all-`Param` route: a slash before each value. -/
def glue : List (List Char) → List Char
  | [] => []
  | v :: vs => '/' :: (v ++ glue vs)

/-- Route compiled from "/user/<id:int>/" (route.rs doctests and tests). -/
def userRoute : Route :=
  ⟨"user-route".data,
   [Segment.Constant "user".data, Segment.Param ⟨"id".data, INT_PARAM⟩, Segment.Empty]⟩

/-- Route compiled from "/user/<id:int>/profile/<profile_id:uuid>"
(route.rs `test_parse_long_route`). -/
def longRoute : Route :=
  ⟨"long-route".data,
   [Segment.Constant "user".data, Segment.Param ⟨"id".data, INT_PARAM⟩,
    Segment.Constant "profile".data, Segment.Param ⟨"profile_id".data, UUID_PARAM⟩]⟩

/-- Route compiled from "/" (route.rs `test_parse_empty_route`). -/
def rootRoute : Route := ⟨"empty-route".data, [Segment.Empty]⟩

/-- A route consisting of a single int parameter segment. -/
def intRoute : Route := ⟨"int-route".data, [Segment.Param ⟨"ab".data, INT_PARAM⟩]⟩

/-- A route consisting of a single string parameter segment. -/
def strRoute : Route := ⟨"str-route".data, [Segment.Param ⟨"ab".data, STRING_PARAM⟩]⟩

/-- A custom parameter type like the one in parse.rs `test_parse_custom_type`. -/
def slugType : ParamType := ⟨"slug".data, fun _ => true⟩


/-! ## Helper lemmas -/

theorem splitSlash_ne_nil (l : List Char) : splitSlash l ≠ [] := by
  cases l with
  | nil => simp [splitSlash]
  | cons c rest =>
    by_cases h : c = '/'
    · simp [splitSlash, h]
    · cases h2 : splitSlash rest <;> simp [splitSlash, h, h2]

theorem splitSlash_no_slash (v : List Char) (hv : '/' ∉ v) : splitSlash v = [v] := by
  induction v with
  | nil => rfl
  | cons c rest ih =>
    simp only [List.mem_cons, not_or] at hv
    have hc : ¬ c = '/' := fun h => hv.1 h.symm
    rw [splitSlash, if_neg hc, ih hv.2]

theorem splitSlash_append (v t : List Char) (hv : '/' ∉ v) :
    splitSlash (v ++ '/' :: t) = v :: splitSlash t := by
  induction v with
  | nil => simp [splitSlash]
  | cons c rest ih =>
    simp only [List.mem_cons, not_or] at hv
    have hc : ¬ c = '/' := fun h => hv.1 h.symm
    rw [List.cons_append, splitSlash, if_neg hc, ih hv.2]

theorem splitSlash_glue (v : List Char) (vs : List (List Char))
    (hv : '/' ∉ v) (hvs : ∀ w ∈ vs, '/' ∉ w) :
    splitSlash (v ++ glue vs) = v :: vs := by
  induction vs generalizing v with
  | nil => simpa [glue] using splitSlash_no_slash v hv
  | cons w ws ih =>
    rw [glue, splitSlash_append v _ hv,
      ih w (hvs w (by simp)) (fun u hu => hvs u (by simp [hu]))]

theorem splitSlash_single (l x : List Char) (h : splitSlash l = [x]) : l = x := by
  induction l generalizing x with
  | nil =>
    simp only [splitSlash] at h
    exact (List.cons.injEq _ _ _ _ ▸ h).1.symm ▸ rfl
  | cons c rest ih =>
    by_cases hc : c = '/'
    · rw [splitSlash, if_pos hc] at h
      exact absurd (List.cons.inj h).2 (splitSlash_ne_nil rest)
    · rw [splitSlash, if_neg hc] at h
      cases h2 : splitSlash rest with
      | nil => exact absurd h2 (splitSlash_ne_nil rest)
      | cons p ps =>
        rw [h2] at h
        obtain ⟨h3, h4⟩ := List.cons.inj h
        cases h4
        rw [← h3, ih p h2]

theorem fillGo_none_iff (segs : List Segment) (vs : List (List Char)) :
    fillGo segs vs = none ↔ vs.length ≠ paramCount segs := by
  induction segs generalizing vs with
  | nil => cases vs <;> simp [fillGo, paramCount]
  | cons seg rest ih =>
    cases seg with
    | Empty => simpa [fillGo, paramCount] using ih vs
    | Constant s => simpa [fillGo, paramCount] using ih vs
    | Param pa =>
      cases vs with
      | nil => simp [fillGo, paramCount]
      | cons v vs1 =>
        simp only [fillGo, paramCount, Option.map_eq_none', ih vs1, List.length_cons]
        omega

theorem paramCount_allParams (segs : List Segment)
    (hall : ∀ seg ∈ segs, ∃ pa, seg = Segment.Param pa) :
    paramCount segs = segs.length := by
  induction segs with
  | nil => rfl
  | cons seg rest ih =>
    obtain ⟨pa, rfl⟩ := hall seg (by simp)
    rw [paramCount, ih (fun s hs => hall s (by simp [hs])), List.length_cons]

theorem fillGo_allParams (segs : List Segment) (vs : List (List Char))
    (hall : ∀ seg ∈ segs, ∃ pa, seg = Segment.Param pa)
    (hlen : vs.length = segs.length) :
    fillGo segs vs = some (glue vs) := by
  induction segs generalizing vs with
  | nil =>
    cases vs with
    | nil => rfl
    | cons v vs1 => simp at hlen
  | cons seg rest ih =>
    obtain ⟨pa, rfl⟩ := hall seg (by simp)
    cases vs with
    | nil => simp at hlen
    | cons v vs1 =>
      rw [fillGo, ih vs1 (fun s hs => hall s (by simp [hs])) (by simpa using hlen), glue]
      rfl

theorem paramsGo_allParams (parts : List (List Char)) (segs : List Segment)
    (hall : ∀ seg ∈ segs, ∃ pa, seg = Segment.Param pa)
    (hlen : parts.length = segs.length) :
    paramsGo parts segs = some parts := by
  induction segs generalizing parts with
  | nil =>
    cases parts with
    | nil => rfl
    | cons p ps => simp at hlen
  | cons seg rest ih =>
    obtain ⟨pa, rfl⟩ := hall seg (by simp)
    cases parts with
    | nil => simp at hlen
    | cons p ps =>
      rw [paramsGo, ih ps (fun s hs => hall s (by simp [hs])) (by simpa using hlen)]
      rfl

theorem intDigits_iff (ds : List Char) (b : Nat) :
    intDigits ds b = true ↔ ds ≠ [] ∧ ds.all Char.isDigit = true ∧ natVal ds ≤ b := by
  cases ds with
  | nil => simp [intDigits]
  | cons d ds1 => simp [intDigits]

theorem lookupPM_insertPM_ne (m : ParamMap) (k : List Char) (v : ParamType)
    (n : List Char) (hn : n ≠ k) : lookupPM (insertPM m k v) n = lookupPM m n := by
  induction m with
  | nil => simp [insertPM, lookupPM, Ne.symm hn]
  | cons kv rest ih =>
    obtain ⟨k1, v1⟩ := kv
    by_cases h : k1 = k
    · subst h
      simp [insertPM, lookupPM, Ne.symm hn]
    · simp [insertPM, lookupPM, h, ih]

theorem lookupPM_insertPM_self (m : ParamMap) (k : List Char) (v : ParamType) :
    lookupPM (insertPM m k v) k = some v := by
  induction m with
  | nil => simp [insertPM, lookupPM]
  | cons kv rest ih =>
    obtain ⟨k1, v1⟩ := kv
    by_cases h : k1 = k
    · subst h
      simp [insertPM, lookupPM]
    · simp [insertPM, lookupPM, h, ih]

/-! ## Claim theorems -/

/-- Claim C1: the spec says `check` is true iff `parse_params` is present.  The
code diverges: for the route compiled from "/user/<id:int>/" and path
"/user/abc/", `check` is false (the int predicate rejects "abc") while
`parse_params` still returns `some ["abc"]`, because `parse_params` never
consults the parameter type predicate — contradicting its own doc comment,
which promises `None` when the path does not match. -/
theorem C1_match_extract_divergence :
    Parser.route Parser.default "user-route".data "/user/<id:int>/".data = Except.ok userRoute ∧
    userRoute.check "/user/abc/".data = false ∧
    userRoute.parse_params "/user/abc/".data = some ["abc".data] :=
  ⟨rfl, rfl, rfl⟩

/-- Claim C2: the spec (and the repository's own `test_routes`) expect the
template "/game/<slug>/" to compile.  The grammar in parse.rs requires
"<name:type>" with a mandatory colon, so `param` fails on "<slug>", the
alternation falls back to `empty`, and `Parser::route` reports the trailing
input "<slug>/" as an `ExtraInput` error instead of a `Route`. -/
theorem C2_slug_template_rejected :
    Parser.route Parser.default "game".data "/game/<slug>/".data =
      Except.error (ParseError.ExtraInput [Segment.Constant "game".data, Segment.Empty]
        "<slug>/".data) :=
  rfl

/-- Claim C3 counterexample: compiling "/x/<id:not_a_type>/" with the default
registry yields the generic trailing-input error `ExtraInput`, not a
distinguished unknown-parameter-type error, refuting the claim that the
failure is distinguishable from the trailing-input case. -/
theorem C3_counterexample :
    Parser.route Parser.default "x".data "/x/<id:not_a_type>/".data =
      Except.error (ParseError.ExtraInput [Segment.Constant "x".data, Segment.Empty]
        "<id:not_a_type>/".data) :=
  rfl

/-- Claim C3 (amended): compiling "/x/<id:not_a_type>/" with the default
registry fails and returns no Route, but the failure is reported as the
trailing-input error carrying segments [Constant "x", Empty] and remainder
"<id:not_a_type>/": the unknown typename makes `param` fail recoverably, the
alternation falls back to `empty`, and no unknown-type error variant exists. -/
theorem C3_unknown_type_trailing :
    Parser.route Parser.default "x".data "/x/<id:not_a_type>/".data =
      Except.error (ParseError.ExtraInput [Segment.Constant "x".data, Segment.Empty]
        "<id:not_a_type>/".data) ∧
    lookupPM Parser.default.param_types "not_a_type".data = none :=
  ⟨rfl, rfl⟩

/-- Claim C4 counterexample: for the single-`string`-parameter route, the value
"a/b" satisfies the string predicate and has the correct count, yet
`fill` produces "/a/b", which `parse_params` splits into two components and
rejects, so `extract (fill values)` does not reconstruct `values`. -/
theorem C4_counterexample :
    check_str "a/b".data = true ∧
    strRoute.fill ["a/b".data] = some "/a/b".data ∧
    strRoute.parse_params "/a/b".data = none :=
  ⟨rfl, rfl, rfl⟩

/-- Claim C5: `fill` returns `none` exactly when the number of supplied values
differs from the number of `Param` segments of the route — too few values
abort at the unsatisfied `Param`, too many fail the final leftover check. -/
theorem C5_fill_arity (r : Route) (values : List (List Char)) :
    r.fill values = none ↔ values.length ≠ paramCount r.path :=
  fillGo_none_iff r.path values

/-- Claim C6 counterexample: filling the long route with its two values yields
"/user/123/profile/abc-uuid..." — there is no trailing slash, contrary to the
claimed output "/user/123/profile/abc-uuid.../". -/
theorem C6_counterexample :
    longRoute.fill ["123".data, "abc-uuid...".data] =
      some "/user/123/profile/abc-uuid...".data ∧
    ("/user/123/profile/abc-uuid...".data : List Char) ≠
      "/user/123/profile/abc-uuid.../".data :=
  ⟨rfl, by decide⟩

/-- Claim C6 (amended): "/user/<id:int>/profile/<profile_id:uuid>" compiles to
the four-segment route, filling with ["123", "abc-uuid..."] produces
"/user/123/profile/abc-uuid..." (no trailing slash, matching the fill
doctest), and one fewer or one extra value returns `none`. -/
theorem C6_fill_long_route :
    Parser.route Parser.default "long-route".data
        "/user/<id:int>/profile/<profile_id:uuid>".data = Except.ok longRoute ∧
    longRoute.fill ["123".data, "abc-uuid...".data] =
      some "/user/123/profile/abc-uuid...".data ∧
    longRoute.fill ["123".data] = none ∧
    longRoute.fill ["123".data, "abc-uuid...".data, "extra".data] = none :=
  ⟨rfl, rfl, rfl, rfl⟩

/-- Claim C7 counterexample: the route compiled from "/" also matches the empty
path "", because `check` strips at most one leading slash and "" splits into
the single empty component just as "/" does — so "/" is not the only matching
path. -/
theorem C7_counterexample :
    Parser.route Parser.default "empty-route".data "/".data = Except.ok rootRoute ∧
    rootRoute.check "".data = true ∧
    ("".data : List Char) ≠ "/".data :=
  ⟨rfl, rfl, by decide⟩

/-- Claim C8 counterexample: the template "/x/<a:int>/" with a single-character
identifier does not compile: `identifier` demands one alphabetic character
followed by a nonempty urlsafe run (`take_while1`), so `param` fails on "<a:"
and the parse ends with trailing input "<a:int>/". -/
theorem C8_counterexample :
    Parser.route Parser.default "x".data "/x/<a:int>/".data =
      Except.error (ParseError.ExtraInput [Segment.Constant "x".data, Segment.Empty]
        "<a:int>/".data) :=
  rfl

/-- Claim C9 counterexample: "+5" is accepted at an int parameter position —
Rust's i64 parser accepts an optional leading '+', contrary to the claim that
no leading '+' is accepted. -/
theorem C9_counterexample :
    check_int "+5".data = true ∧ intRoute.check "/+5".data = true :=
  ⟨rfl, rfl⟩

/-- Claim C10: registering a parameter type on one parser only changes that
parser's own registry.  Each `Parser` owns its map (`Parser::default` clones
the static default map), so in this pure model `add_param_type` produces a
parser whose lookups agree with the original everywhere except the registered
typename, resolves the registered typename to the new type, and
`Parser::default` is exactly the pristine default registry. -/
theorem C10_registry_isolation :
    (∀ (p : Parser) (t : ParamType) (n : List Char), n ≠ t.typename →
        lookupPM (p.add_param_type t).param_types n = lookupPM p.param_types n) ∧
    (∀ (p : Parser) (t : ParamType),
        lookupPM (p.add_param_type t).param_types t.typename = some t) ∧
    Parser.default.param_types = DEFAULT_PARAM_TYPES :=
  ⟨fun p t n hn => lookupPM_insertPM_ne p.param_types t.typename t n hn,
   fun p t => lookupPM_insertPM_self p.param_types t.typename t,
   rfl⟩

/-- Claim C10 witness: registering the custom "slug" type on the default parser
leaves the resolution of "int" unchanged. -/
theorem C10_witness :
    lookupPM ((Parser.default.add_param_type slugType).param_types) "int".data =
      lookupPM Parser.default.param_types "int".data :=
  C10_registry_isolation.1 Parser.default slugType "int".data (by decide)


theorem Route_check_eq (r : Route) (p : List Char) :
    r.check p = if (splitSlash (stripLead p)).length = r.path.length
      then checkGo (splitSlash (stripLead p)) r.path else false := rfl

theorem Route_parse_params_eq (r : Route) (p : List Char) :
    r.parse_params p = if (splitSlash (stripLead p)).length = r.path.length
      then paramsGo (splitSlash (stripLead p)) r.path else none := rfl

theorem rootRoute_check_iff (p : List Char) :
    rootRoute.check p = true ↔ stripLead p = [] := by
  rw [Route_check_eq]
  constructor
  · intro h
    by_cases hl : (splitSlash (stripLead p)).length = rootRoute.path.length
    · have h1 : (splitSlash (stripLead p)).length = 1 := by simpa [rootRoute] using hl
      obtain ⟨x, hx⟩ := List.length_eq_one.mp h1
      rw [if_pos hl, hx] at h
      cases x with
      | nil => exact splitSlash_single _ _ hx
      | cons a as => simp [rootRoute, checkGo] at h
    · rw [if_neg hl] at h
      cases h
  · intro h
    rw [h]
    simp [splitSlash, rootRoute, checkGo]

theorem stripLead_eq_nil_iff (p : List Char) :
    stripLead p = [] ↔ p = ['/'] ∨ p = [] := by
  cases p with
  | nil => simp [stripLead]
  | cons c rest =>
    by_cases h : c = '/'
    · subst h
      simp [stripLead]
    · simp [stripLead, h]

/-- Claim C7 (amended): the template "/" parses to a route whose segment
sequence is exactly one `Empty` segment, and that route matches a path
exactly when the path is "/" or "" — both normalise to the empty cleaned
path, whose split is the single empty component. -/
theorem C7_root_route :
    Parser.route Parser.default "empty-route".data "/".data = Except.ok rootRoute ∧
    ∀ p : List Char, rootRoute.check p = true ↔ (p = "/".data ∨ p = "".data) := by
  refine ⟨rfl, fun p => ?_⟩
  rw [rootRoute_check_iff, stripLead_eq_nil_iff]

/-- Claim C8 (amended): `identifier` succeeds exactly on inputs whose first
character is alphabetic and whose second character is urlsafe — one
alphabetic character followed by ONE or more urlsafe characters
(`take_while1`), so single-character identifiers are rejected; in particular
"/x/<ab:int>/" compiles while a non-alphabetic first character always fails. -/
theorem C8_identifier_min_two :
    (∀ input : List Char, (identifier input).isSome =
        match input with
        | c :: d :: _ => is_alpha c && urlsafe_char d
        | _ => false) ∧
    Parser.route Parser.default "x".data "/x/<ab:int>/".data =
      Except.ok ⟨"x".data,
        [Segment.Constant "x".data, Segment.Param ⟨"ab".data, INT_PARAM⟩, Segment.Empty]⟩ := by
  constructor
  · intro input
    cases input with
    | nil => rfl
    | cons c rest =>
      cases rest with
      | nil =>
        by_cases h : is_alpha c = true
        · simp [identifier, urlsafe_str, h]
        · simp [identifier, h]
      | cons d rest2 =>
        by_cases h : is_alpha c = true
        · by_cases h2 : urlsafe_char d = true
          · simp [identifier, urlsafe_str, h, h2]
          · simp [identifier, urlsafe_str, h, h2]
        · simp [identifier, h]
  · rfl

theorem check_int_plus (cs : List Char) :
    check_int ('+' :: cs) = intDigits cs (2 ^ 63 - 1) := by
  simp [check_int]

theorem check_int_minus (cs : List Char) :
    check_int ('-' :: cs) = intDigits cs (2 ^ 63) := by
  simp [check_int]

theorem check_int_unsigned (c : Char) (cs : List Char) (h1 : c ≠ '+') (h2 : c ≠ '-') :
    check_int (c :: cs) = intDigits (c :: cs) (2 ^ 63 - 1) := by
  simp [check_int, h1, h2]

/-- Claim C9 (amended): matching a slash-free component `s` at an `int`
parameter position succeeds exactly when `s` is an optional leading '+' or
'-' sign — both signs are accepted by the Rust i64 parser — followed by one
or more ASCII digits whose value fits in a signed 64-bit integer. -/
theorem C9_int_gate (s : List Char) (h : '/' ∉ s) :
    intRoute.check ('/' :: s) = true ↔
      ((∃ ds, (s = ds ∨ s = '+' :: ds) ∧ ds ≠ [] ∧ ds.all Char.isDigit = true ∧
          natVal ds ≤ 2 ^ 63 - 1) ∨
       (∃ ds, s = '-' :: ds ∧ ds ≠ [] ∧ ds.all Char.isDigit = true ∧
          natVal ds ≤ 2 ^ 63)) := by
  have h1 : intRoute.check ('/' :: s) = check_int s := by
    rw [Route_check_eq]
    have hst : stripLead ('/' :: s) = s := by simp [stripLead]
    rw [hst, splitSlash_no_slash s h]
    simp [intRoute, checkGo, INT_PARAM]
  rw [h1]
  cases s with
  | nil =>
    constructor
    · intro hfalse
      exact absurd hfalse (by decide)
    · rintro (⟨ds, hds | hds, hne, -, -⟩ | ⟨ds, hds, hne, -, -⟩)
      · exact absurd hds.symm hne
      · cases hds
      · cases hds
  | cons c cs =>
    by_cases hp : c = '+'
    · subst hp
      rw [check_int_plus, intDigits_iff]
      constructor
      · rintro ⟨hne, hdig, hle⟩
        exact Or.inl ⟨cs, Or.inr rfl, hne, hdig, hle⟩
      · rintro (⟨ds, hds | hds, hne, hdig, hle⟩ | ⟨ds, hds, hne, hdig, hle⟩)
        · subst hds
          simp at hdig
        · injection hds with h1 h2
          subst h2
          exact ⟨hne, hdig, hle⟩
        · injection hds with h1 h2
          exact absurd h1 (by decide)
    · by_cases hm : c = '-'
      · subst hm
        rw [check_int_minus, intDigits_iff]
        constructor
        · rintro ⟨hne, hdig, hle⟩
          exact Or.inr ⟨cs, rfl, hne, hdig, hle⟩
        · rintro (⟨ds, hds | hds, hne, hdig, hle⟩ | ⟨ds, hds, hne, hdig, hle⟩)
          · subst hds
            simp at hdig
          · injection hds with h1 h2
            exact absurd h1 (by decide)
          · injection hds with h1 h2
            subst h2
            exact ⟨hne, hdig, hle⟩
      · rw [check_int_unsigned c cs hp hm, intDigits_iff]
        constructor
        · rintro ⟨hne, hdig, hle⟩
          exact Or.inl ⟨c :: cs, Or.inl rfl, hne, hdig, hle⟩
        · rintro (⟨ds, hds | hds, hne, hdig, hle⟩ | ⟨ds, hds, hne, hdig, hle⟩)
          · subst hds
            exact ⟨hne, hdig, hle⟩
          · injection hds with h1 h2
            exact absurd h1 hp
          · injection hds with h1 h2
            exact absurd h1 hm

/-- Claim C9 witness: "+12" is slash-free and matches at the int position. -/
theorem C9_witness :
    intRoute.check ('/' :: "+12".data) = true :=
  (C9_int_gate "+12".data (by decide)).mpr
    (Or.inl ⟨"12".data, Or.inr rfl, by decide, by decide, by decide⟩)

/-- Claim C4 (amended): for every route with at least one segment, all of whose
segments are `Param` segments of the built-in types, and every value list of
the matching length whose entries satisfy the corresponding predicates and
contain no '/' character, `parse_params (fill values)` reconstructs `values`.
(The slash restriction is forced by `C4_counterexample`: the `string`
predicate accepts "a/b", which fill embeds and the splitter then cuts apart;
the nonemptiness restriction is the spec's own segment-sequence invariant,
without which `fill` yields "" and `parse_params` sees one empty component.) -/
theorem C4_roundtrip (r : Route) (values : List (List Char))
    (hall : ∀ seg ∈ r.path, ∃ pa, seg = Segment.Param pa ∧
      (pa.kind = INT_PARAM ∨ pa.kind = UUID_PARAM ∨ pa.kind = STRING_PARAM))
    (hne : r.path ≠ [])
    (hlen : values.length = paramCount r.path)
    (hchk : List.Forall₂
      (fun seg v => ∀ pa, seg = Segment.Param pa → pa.kind.check v = true)
      r.path values)
    (hsl : ∀ v ∈ values, '/' ∉ v) :
    ∃ s, r.fill values = some s ∧ r.parse_params s = some values := by
  have hallP : ∀ seg ∈ r.path, ∃ pa, seg = Segment.Param pa := fun seg hs =>
    (hall seg hs).elim fun pa hpa => ⟨pa, hpa.1⟩
  have hlen1 : values.length = r.path.length := by
    rw [hlen, paramCount_allParams r.path hallP]
  have hfill : r.fill values = some (glue values) :=
    fillGo_allParams r.path values hallP hlen1
  refine ⟨glue values, hfill, ?_⟩
  cases values with
  | nil => exact absurd (List.length_eq_zero.mp hlen1.symm) hne
  | cons v vs =>
    have hst : stripLead (glue (v :: vs)) = v ++ glue vs := by
      simp [glue, stripLead]
    have hsp : splitSlash (v ++ glue vs) = v :: vs :=
      splitSlash_glue v vs (hsl v (by simp)) (fun w hw => hsl w (by simp [hw]))
    rw [Route_parse_params_eq, hst, hsp, if_pos hlen1]
    exact paramsGo_allParams (v :: vs) r.path hallP hlen1

/-- Claim C4 witness: the single-int-parameter route round-trips ["57"]. -/
theorem C4_witness :
    ∃ s, intRoute.fill ["57".data] = some s ∧
      intRoute.parse_params s = some ["57".data] :=
  C4_roundtrip intRoute ["57".data]
    (by
      intro seg hs
      simp only [intRoute, List.mem_singleton] at hs
      subst hs
      exact ⟨⟨"ab".data, INT_PARAM⟩, rfl, Or.inl rfl⟩)
    (by simp [intRoute])
    (by rfl)
    (by
      refine List.Forall₂.cons ?_ List.Forall₂.nil
      intro pa hpa
      injection hpa with h1
      rw [← h1]
      decide)
    (by
      intro v hv
      simp only [List.mem_singleton] at hv
      subst hv
      decide)

end Routem
